import Mathlib

/-!
Shallow embedding of the entity-component / renderer core of the
GDBobby/vulkan engine (GfxRenderEngine), covering:

* `TransformComponent` (src/engine/scene/components.cpp): lazy matrix
  recomputation gated by a dirty flag;
* `VK_LightSystem::Update` (src/engine/platform/Vulkan/systems/VKlightSys.cpp):
  per-frame point-light sorting into a `std::map<float, entt::entity>` and the
  directional-light block;
* `Engine::RunScripts` (src/engine/core.cpp) with its warn-once deduplication;
* the window-resize pause logic (src/engine/core.cpp `Engine::OnEvent`) and the
  main loop (src/engine/engine.cpp);
* render-system construction failure handling and draw enumeration
  (VKpbrNoMapSys.cpp, VKshadowRenderSys.cpp).

Scalars are modelled by `ℚ` (exact arithmetic standing in for IEEE floats: the
claims verified here concern control flow, ordering and algebraic structure,
none of which depend on rounding).  Trigonometric functions used by
glm's Euler-angle-to-quaternion conversion are abstracted as function
parameters `c s : ℚ → ℚ` (cos and sin of the half angles); every theorem holds
for all such functions.
-/

namespace GfxRenderEngine

/-- glm::vec3 with rational components. -/
structure Vec3 where
  x : ℚ
  y : ℚ
  z : ℚ
deriving DecidableEq, Repr

/-- glm::vec4 with rational components. -/
structure Vec4 where
  x : ℚ
  y : ℚ
  z : ℚ
  w : ℚ
deriving DecidableEq, Repr

/-- glm::mat3, column major: `ci` is column i, as in glm `m[i]`. -/
structure Mat3 where
  c0 : Vec3
  c1 : Vec3
  c2 : Vec3
deriving DecidableEq, Repr

/-- glm::mat4, column major: `ci` is column i, as in glm `m[i]`. -/
structure Mat4 where
  c0 : Vec4
  c1 : Vec4
  c2 : Vec4
  c3 : Vec4
deriving DecidableEq, Repr

def Vec3.add (a b : Vec3) : Vec3 := ⟨a.x + b.x, a.y + b.y, a.z + b.z⟩

def Vec3.sub (a b : Vec3) : Vec3 := ⟨a.x - b.x, a.y - b.y, a.z - b.z⟩

instance : Add Vec3 := ⟨Vec3.add⟩

instance : Sub Vec3 := ⟨Vec3.sub⟩

/-- glm::dot for vec3. -/
def Vec3.dot (a b : Vec3) : ℚ := a.x * b.x + a.y * b.y + a.z * b.z

/-- Scale a vec4 by a scalar (glm `column * scalar`). -/
def Vec4.smul (a : Vec4) (k : ℚ) : Vec4 := ⟨a.x * k, a.y * k, a.z * k, a.w * k⟩

def Vec4.add (a b : Vec4) : Vec4 := ⟨a.x + b.x, a.y + b.y, a.z + b.z, a.w + b.w⟩

instance : Add Vec4 := ⟨Vec4.add⟩

/-- glm::mat4(1.0f), the identity matrix. -/
def mat4id : Mat4 :=
  ⟨⟨1, 0, 0, 0⟩, ⟨0, 1, 0, 0⟩, ⟨0, 0, 1, 0⟩, ⟨0, 0, 0, 1⟩⟩

/-- glm mat4 * vec4 (linear combination of columns). -/
def Mat4.mulVec (m : Mat4) (v : Vec4) : Vec4 :=
  (((m.c0.smul v.x).add (m.c1.smul v.y)).add (m.c2.smul v.z)).add (m.c3.smul v.w)

/-- glm mat4 * mat4. -/
def Mat4.mul (a b : Mat4) : Mat4 :=
  ⟨a.mulVec b.c0, a.mulVec b.c1, a.mulVec b.c2, a.mulVec b.c3⟩

/-- glm::translate(m, v): result keeps columns 0..2 of `m` and sets
column 3 to `m[0]*v.x + m[1]*v.y + m[2]*v.z + m[3]`. -/
def glmTranslate (m : Mat4) (v : Vec3) : Mat4 :=
  ⟨m.c0, m.c1, m.c2, (((m.c0.smul v.x).add (m.c1.smul v.y)).add (m.c2.smul v.z)).add m.c3⟩

/-- glm::scale(m, v): scales columns 0..2 of `m` by the components of `v`. -/
def glmScale (m : Mat4) (v : Vec3) : Mat4 :=
  ⟨m.c0.smul v.x, m.c1.smul v.y, m.c2.smul v.z, m.c3⟩

/-- glm quaternion (w, x, y, z components). -/
structure Quat where
  w : ℚ
  x : ℚ
  y : ℚ
  z : ℚ
deriving DecidableEq, Repr

/-- glm::quat(vec3 eulerAngles): builds a quaternion from Euler angles using
cosines and sines of the half angles.  `c` and `s` are the cosine and sine
functions (abstracted; the embedding applies them to `angle/2` exactly as glm
computes `cos(eulerAngle * 0.5)` / `sin(eulerAngle * 0.5)`). -/
def quatFromEuler (c s : ℚ → ℚ) (e : Vec3) : Quat :=
  let cx := c (e.x / 2)
  let cy := c (e.y / 2)
  let cz := c (e.z / 2)
  let sx := s (e.x / 2)
  let sy := s (e.y / 2)
  let sz := s (e.z / 2)
  { w := cx * cy * cz + sx * sy * sz
    x := sx * cy * cz - cx * sy * sz
    y := cx * sy * cz + sx * cy * sz
    z := cx * cy * sz - sx * sy * cz }

/-- glm::mat3_cast(quat): quaternion to 3×3 rotation matrix. -/
def mat3Cast (q : Quat) : Mat3 :=
  let qxx := q.x * q.x
  let qyy := q.y * q.y
  let qzz := q.z * q.z
  let qxz := q.x * q.z
  let qxy := q.x * q.y
  let qyz := q.y * q.z
  let qwx := q.w * q.x
  let qwy := q.w * q.y
  let qwz := q.w * q.z
  { c0 := ⟨1 - 2 * (qyy + qzz), 2 * (qxy + qwz), 2 * (qxz - qwy)⟩
    c1 := ⟨2 * (qxy - qwz), 1 - 2 * (qxx + qzz), 2 * (qyz + qwx)⟩
    c2 := ⟨2 * (qxz + qwy), 2 * (qyz - qwx), 1 - 2 * (qxx + qyy)⟩ }

/-- glm::toMat4(quat): the 3×3 rotation matrix embedded in a mat4. -/
def glmToMat4 (q : Quat) : Mat4 :=
  let m := mat3Cast q
  ⟨⟨m.c0.x, m.c0.y, m.c0.z, 0⟩, ⟨m.c1.x, m.c1.y, m.c1.z, 0⟩,
   ⟨m.c2.x, m.c2.y, m.c2.z, 0⟩, ⟨0, 0, 0, 1⟩⟩

/-- glm::mat3(mat4): upper-left 3×3 block. -/
def mat3OfMat4 (m : Mat4) : Mat3 :=
  ⟨⟨m.c0.x, m.c0.y, m.c0.z⟩, ⟨m.c1.x, m.c1.y, m.c1.z⟩, ⟨m.c2.x, m.c2.y, m.c2.z⟩⟩

/-- glm::transpose for mat3. -/
def transpose3 (m : Mat3) : Mat3 :=
  ⟨⟨m.c0.x, m.c1.x, m.c2.x⟩, ⟨m.c0.y, m.c1.y, m.c2.y⟩, ⟨m.c0.z, m.c1.z, m.c2.z⟩⟩

/-- glm::determinant for mat3 (as computed inside glm::inverse). -/
def det3 (m : Mat3) : ℚ :=
  m.c0.x * (m.c1.y * m.c2.z - m.c2.y * m.c1.z)
    - m.c1.x * (m.c0.y * m.c2.z - m.c2.y * m.c0.z)
    + m.c2.x * (m.c0.y * m.c1.z - m.c1.y * m.c0.z)

/-- glm::inverse for mat3: adjugate scaled by one over the determinant.
(`ℚ` division by zero yields 0 where IEEE floats would produce inf/nan;
the claims proved below never depend on the singular case.) -/
def inverse3 (m : Mat3) : Mat3 :=
  let d := det3 m
  { c0 := ⟨(m.c1.y * m.c2.z - m.c2.y * m.c1.z) / d,
           -(m.c0.y * m.c2.z - m.c2.y * m.c0.z) / d,
           (m.c0.y * m.c1.z - m.c1.y * m.c0.z) / d⟩
    c1 := ⟨-(m.c1.x * m.c2.z - m.c2.x * m.c1.z) / d,
           (m.c0.x * m.c2.z - m.c2.x * m.c0.z) / d,
           -(m.c0.x * m.c1.z - m.c1.x * m.c0.z) / d⟩
    c2 := ⟨(m.c1.x * m.c2.y - m.c2.x * m.c1.y) / d,
           -(m.c0.x * m.c2.y - m.c2.x * m.c0.y) / d,
           (m.c0.x * m.c1.y - m.c1.x * m.c0.y) / d⟩ }

/-- `TransformComponent` (scene/components.h / components.cpp): translation,
rotation (Euler angles), scale, the cached model and normal matrices, and the
dirty flag gating their recomputation. -/
structure TransformComponent where
  m_Scale : Vec3
  m_Rotation : Vec3
  m_Translation : Vec3
  m_Mat4 : Mat4
  m_NormalMatrix : Mat3
  m_Dirty : Bool
deriving DecidableEq, Repr

namespace TransformComponent

/-- The default constructor: scale 1, rotation 0, translation 0, dirty.
The two matrix members are left uninitialized in C++; the embedding takes
their (arbitrary) initial contents as parameters `m0`, `n0`. -/
def init (m0 : Mat4) (n0 : Mat3) : TransformComponent :=
  { m_Scale := ⟨1, 1, 1⟩, m_Rotation := ⟨0, 0, 0⟩, m_Translation := ⟨0, 0, 0⟩
    m_Mat4 := m0, m_NormalMatrix := n0, m_Dirty := true }

/-- The `TransformComponent(const glm::mat4&)` constructor: stores the given
matrix, decomposes it into scale / rotation / translation via glm::decompose
followed by glm::eulerAngles, and clears the dirty flag.  `decomp` abstracts
glm::decompose composed with glm::eulerAngles (an external glm library
function), returning (scale, eulerRotation, translation); `n0` is the
(uninitialized in C++) normal-matrix member, which this constructor never
writes. -/
def fromMat4 (decomp : Mat4 → Vec3 × Vec3 × Vec3) (n0 : Mat3) (transform : Mat4) :
    TransformComponent :=
  { m_Scale := (decomp transform).1, m_Rotation := (decomp transform).2.1
    m_Translation := (decomp transform).2.2
    m_Mat4 := transform, m_NormalMatrix := n0, m_Dirty := false }

def SetScale (t : TransformComponent) (scale : Vec3) : TransformComponent :=
  { t with m_Scale := scale, m_Dirty := true }

/-- The `SetScale(const float)` overload: uniform scale. -/
def SetScaleF (t : TransformComponent) (scale : ℚ) : TransformComponent :=
  { t with m_Scale := ⟨scale, scale, scale⟩, m_Dirty := true }

def SetScaleX (t : TransformComponent) (scaleX : ℚ) : TransformComponent :=
  { t with m_Scale := { t.m_Scale with x := scaleX }, m_Dirty := true }

def SetScaleY (t : TransformComponent) (scaleY : ℚ) : TransformComponent :=
  { t with m_Scale := { t.m_Scale with y := scaleY }, m_Dirty := true }

def SetScaleZ (t : TransformComponent) (scaleZ : ℚ) : TransformComponent :=
  { t with m_Scale := { t.m_Scale with z := scaleZ }, m_Dirty := true }

def AddScale (t : TransformComponent) (deltaScale : Vec3) : TransformComponent :=
  t.SetScale (t.m_Scale + deltaScale)

def SetRotation (t : TransformComponent) (rotation : Vec3) : TransformComponent :=
  { t with m_Rotation := rotation, m_Dirty := true }

/-- The `SetRotation(const glm::quat&)` overload: converts the quaternion to
Euler angles with glm::eulerAngles (an external pure glm function, abstracted
here by passing its result `convert` directly) and delegates to `SetRotation`;
then sets the dirty flag once more. -/
def SetRotationQ (t : TransformComponent) (convert : Vec3) : TransformComponent :=
  { t.SetRotation ⟨convert.x, convert.y, convert.z⟩ with m_Dirty := true }

def SetRotationX (t : TransformComponent) (rotationX : ℚ) : TransformComponent :=
  { t with m_Rotation := { t.m_Rotation with x := rotationX }, m_Dirty := true }

def SetRotationY (t : TransformComponent) (rotationY : ℚ) : TransformComponent :=
  { t with m_Rotation := { t.m_Rotation with y := rotationY }, m_Dirty := true }

def SetRotationZ (t : TransformComponent) (rotationZ : ℚ) : TransformComponent :=
  { t with m_Rotation := { t.m_Rotation with z := rotationZ }, m_Dirty := true }

def AddRotation (t : TransformComponent) (deltaRotation : Vec3) : TransformComponent :=
  t.SetRotation (t.m_Rotation + deltaRotation)

def SetTranslation (t : TransformComponent) (translation : Vec3) : TransformComponent :=
  { t with m_Translation := translation, m_Dirty := true }

def SetTranslationX (t : TransformComponent) (translationX : ℚ) : TransformComponent :=
  { t with m_Translation := { t.m_Translation with x := translationX }, m_Dirty := true }

def SetTranslationY (t : TransformComponent) (translationY : ℚ) : TransformComponent :=
  { t with m_Translation := { t.m_Translation with y := translationY }, m_Dirty := true }

def SetTranslationZ (t : TransformComponent) (translationZ : ℚ) : TransformComponent :=
  { t with m_Translation := { t.m_Translation with z := translationZ }, m_Dirty := true }

def AddTranslation (t : TransformComponent) (deltaTranslation : Vec3) : TransformComponent :=
  t.SetTranslation (t.m_Translation + deltaTranslation)

/-- `GetTranslation` (inline accessor in components.h): returns the stored
translation without touching the dirty flag. -/
def GetTranslation (t : TransformComponent) : Vec3 := t.m_Translation

/-- `RecalculateMatrices`:
`m_Mat4 = glm::translate(I, m_Translation) * glm::toMat4(glm::quat(m_Rotation)) * glm::scale(I, m_Scale)`
(C++ `*` is left associative) and
`m_NormalMatrix = transpose(inverse(mat3(m_Mat4)))`. -/
def RecalculateMatrices (c s : ℚ → ℚ) (t : TransformComponent) : TransformComponent :=
  let scale := glmScale mat4id t.m_Scale
  let rotation := glmToMat4 (quatFromEuler c s t.m_Rotation)
  let translation := glmTranslate mat4id ⟨t.m_Translation.x, t.m_Translation.y, t.m_Translation.z⟩
  let mat4 := (translation.mul rotation).mul scale
  { t with m_Mat4 := mat4, m_NormalMatrix := transpose3 (inverse3 (mat3OfMat4 mat4)) }

/-- `GetMat4`: recompute-and-clear when dirty, then return the cached model
matrix.  Returns the value together with the post-call component state. -/
def GetMat4 (c s : ℚ → ℚ) (t : TransformComponent) : Mat4 × TransformComponent :=
  if t.m_Dirty then
    let t1 := RecalculateMatrices c s { t with m_Dirty := false }
    (t1.m_Mat4, t1)
  else
    (t.m_Mat4, t)

/-- `GetNormalMatrix`: recompute-and-clear when dirty, then return the cached
normal matrix. -/
def GetNormalMatrix (c s : ℚ → ℚ) (t : TransformComponent) : Mat3 × TransformComponent :=
  if t.m_Dirty then
    let t1 := RecalculateMatrices c s { t with m_Dirty := false }
    (t1.m_NormalMatrix, t1)
  else
    (t.m_NormalMatrix, t)

end TransformComponent

/-- One mutator call on a `TransformComponent`, covering every mutator defined
in components.cpp.  The quaternion overload of `SetRotation` carries the
Euler-angle conversion of its quaternion argument (see
`TransformComponent.SetRotationQ`). -/
inductive Mutation where
  | setScale (scale : Vec3)
  | setScaleF (scale : ℚ)
  | setScaleX (v : ℚ)
  | setScaleY (v : ℚ)
  | setScaleZ (v : ℚ)
  | addScale (d : Vec3)
  | setRotation (r : Vec3)
  | setRotationQ (convert : Vec3)
  | setRotationX (v : ℚ)
  | setRotationY (v : ℚ)
  | setRotationZ (v : ℚ)
  | addRotation (d : Vec3)
  | setTranslation (v : Vec3)
  | setTranslationX (v : ℚ)
  | setTranslationY (v : ℚ)
  | setTranslationZ (v : ℚ)
  | addTranslation (d : Vec3)
deriving DecidableEq, Repr

def applyMutation (t : TransformComponent) : Mutation → TransformComponent
  | .setScale v => t.SetScale v
  | .setScaleF v => t.SetScaleF v
  | .setScaleX v => t.SetScaleX v
  | .setScaleY v => t.SetScaleY v
  | .setScaleZ v => t.SetScaleZ v
  | .addScale d => t.AddScale d
  | .setRotation v => t.SetRotation v
  | .setRotationQ v => t.SetRotationQ v
  | .setRotationX v => t.SetRotationX v
  | .setRotationY v => t.SetRotationY v
  | .setRotationZ v => t.SetRotationZ v
  | .addRotation d => t.AddRotation d
  | .setTranslation v => t.SetTranslation v
  | .setTranslationX v => t.SetTranslationX v
  | .setTranslationY v => t.SetTranslationY v
  | .setTranslationZ v => t.SetTranslationZ v
  | .addTranslation d => t.AddTranslation d

/-- A finite sequence of mutator calls, applied left to right. -/
def applyMutations (t : TransformComponent) (ms : List Mutation) : TransformComponent :=
  ms.foldl applyMutation t

/-- One operation on a transform: a mutator or one of the two accessors. -/
inductive TOp where
  | mutate (m : Mutation)
  | getM4
  | getNorm
deriving Repr

def applyTOp (c s : ℚ → ℚ) (t : TransformComponent) : TOp → TransformComponent
  | .mutate m => applyMutation t m
  | .getM4 => (TransformComponent.GetMat4 c s t).2
  | .getNorm => (TransformComponent.GetNormalMatrix c s t).2

def runTOps (c s : ℚ → ℚ) (t : TransformComponent) (ops : List TOp) : TransformComponent :=
  ops.foldl (applyTOp c s) t

/-- The cached matrices of `t` agree with a fresh recomputation from the
current scale / rotation / translation. -/
def CachesValid (c s : ℚ → ℚ) (t : TransformComponent) : Prop :=
  t.m_Mat4 = (TransformComponent.RecalculateMatrices c s t).m_Mat4 ∧
    t.m_NormalMatrix = (TransformComponent.RecalculateMatrices c s t).m_NormalMatrix

instance (c s : ℚ → ℚ) (t : TransformComponent) : Decidable (CachesValid c s t) :=
  inferInstanceAs (Decidable (_ ∧ _))

/-! ## VK_LightSystem::Update (VKlightSys.cpp) -/

/-- Modelled from the spec: `MAX_LIGHTS`, the engine's fixed point-light
capacity ("one per active directional light up to a fixed maximum", "A scene
with the maximum supported number of point lights plus one extra...").  Its
defining header is not under src/; the numeric value is irrelevant to every
theorem below except the concrete counterexamples, which use it. -/
def MAX_LIGHTS : Nat := 10

/-- `PointLightComponent` fields used by the light system. -/
structure PointLightComponent where
  m_Color : Vec3
  m_LightIntensity : ℚ
  m_Radius : ℚ
deriving DecidableEq, Repr

/-- `DirectionalLightComponent` fields used by the light system. -/
structure DirectionalLightComponent where
  m_Direction : Vec3
  m_Color : Vec3
  m_LightIntensity : ℚ
deriving DecidableEq, Repr

/-- One entity produced by `registry.view<PointLightComponent,
TransformComponent>()`, in iteration order: the entity handle together with
the two component rows `view.get` returns for it (lookups by handle in a
fixed registry are pure, so the rows are carried alongside the handle). -/
structure LightEnt where
  handle : Nat
  translation : Vec3
  light : PointLightComponent
deriving DecidableEq, Repr

/-- The squared camera distance used as sort key:
`distanceVec = cameraPosition - lightPosition; dot(distanceVec, distanceVec)`. -/
def dist2 (cam : Vec3) (e : LightEnt) : ℚ :=
  Vec3.dot (cam - e.translation) (cam - e.translation)

/-- `std::map<float, entt::entity>::insert({k, v})` on an association list kept
sorted by strictly ascending key: inserting an already-present key FAILS and
leaves the map unchanged (std::map keys are unique and `insert` does not
overwrite). -/
def mapInsert (k : ℚ) (v : LightEnt) : List (ℚ × LightEnt) → List (ℚ × LightEnt)
  | [] => [(k, v)]
  | (k1, v1) :: rest =>
    if k < k1 then (k, v) :: (k1, v1) :: rest
    else if k1 < k then (k1, v1) :: mapInsert k v rest
    else (k1, v1) :: rest

/-- The first loop of `VK_LightSystem::Update`: for each entity of the view,
`ASSERT(lightIndex < MAX_LIGHTS)` (modelled from the spec as fatal — see
`MAX_LIGHTS` and section 8 of the spec: "assertion/ fatal in source"; the
`ASSERT` macro's definition is not under src/), then insert the entity into
`m_SortedLight` keyed by squared camera distance.  On assertion failure the
value of `lightIndex` at the failure is returned as the error. -/
def fillSortedLight (cam : Vec3) : List LightEnt → Nat → List (ℚ × LightEnt) →
    Except Nat (List (ℚ × LightEnt))
  | [], _, m => .ok m
  | e :: rest, lightIndex, m =>
    if lightIndex < MAX_LIGHTS then
      fillSortedLight cam rest (lightIndex + 1) (mapInsert (dist2 cam e) e m)
    else
      .error lightIndex

/-- One entry of `GlobalUniformBuffer::m_PointLights`. -/
structure PointLightUbo where
  m_Position : Vec4
  m_Color : Vec4
deriving DecidableEq, Repr

/-- The directional-light slot of the uniform buffer. -/
structure DirectionalLightUbo where
  m_Direction : Vec4
  m_Color : Vec4
deriving DecidableEq, Repr

/-- The fields of `GlobalUniformBuffer` written by `VK_LightSystem::Update`.
`m_PointLights` holds the entries written this frame, in write order
(indices 0, 1, ... of the C++ fixed array; cells past
`m_NumberOfActivePointLights` are never read). -/
structure GlobalUniformBuffer where
  m_PointLights : List PointLightUbo
  m_NumberOfActivePointLights : Nat
  m_DirectionalLight : DirectionalLightUbo
  m_NumberOfActiveDirectionalLights : Nat
deriving DecidableEq, Repr

/-- The data the second loop writes for one sorted light:
`m_Position = vec4(translation, 0.0)`, `m_Color = vec4(color, intensity)`. -/
def pointLightUboOf (e : LightEnt) : PointLightUbo :=
  { m_Position := ⟨e.translation.x, e.translation.y, e.translation.z, 0⟩
    m_Color := ⟨e.light.m_Color.x, e.light.m_Color.y, e.light.m_Color.z,
                e.light.m_LightIntensity⟩ }

/-- The point-light block of `VK_LightSystem::Update`: build `m_SortedLight`,
then walk it with a reverse iterator (descending key order) copying each light
into consecutive `ubo.m_PointLights` slots, finally set
`m_NumberOfActivePointLights` to the number of entries written. -/
def updatePointLights (cam : Vec3) (es : List LightEnt) (ubo : GlobalUniformBuffer) :
    Except Nat GlobalUniformBuffer :=
  match fillSortedLight cam es 0 [] with
  | .error i => .error i
  | .ok sortedLight =>
    let entries := sortedLight.reverse.map (fun p => pointLightUboOf p.2)
    .ok { ubo with m_PointLights := entries
                   m_NumberOfActivePointLights := entries.length }

/-- The data written for one directional light:
`m_Direction = vec4(direction, 0.0)`, `m_Color = vec4(color, intensity)`. -/
def directionalLightUboOf (d : DirectionalLightComponent) : DirectionalLightUbo :=
  { m_Direction := ⟨d.m_Direction.x, d.m_Direction.y, d.m_Direction.z, 0⟩
    m_Color := ⟨d.m_Color.x, d.m_Color.y, d.m_Color.z, d.m_LightIntensity⟩ }

/-- The directional-light block of `VK_LightSystem::Update`: every directional
light of the view is written, in iteration order, into the single
`m_DirectionalLight` slot (each write overwrites the previous one), guarded by
the same modelled-fatal `ASSERT(lightIndex < MAX_LIGHTS)`; afterwards
`m_NumberOfActiveDirectionalLights` is set to the loop count. -/
def updateDirectionalsFrom (ubo : GlobalUniformBuffer) :
    List DirectionalLightComponent → Nat → Except Nat GlobalUniformBuffer
  | [], lightIndex => .ok { ubo with m_NumberOfActiveDirectionalLights := lightIndex }
  | d :: rest, lightIndex =>
    if lightIndex < MAX_LIGHTS then
      updateDirectionalsFrom { ubo with m_DirectionalLight := directionalLightUboOf d }
        rest (lightIndex + 1)
    else
      .error lightIndex

def updateDirectionals (ds : List DirectionalLightComponent) (ubo : GlobalUniformBuffer) :
    Except Nat GlobalUniformBuffer :=
  updateDirectionalsFrom ubo ds 0

/-- `VK_LightSystem::Update`: the point-light block followed by the
directional-light block. -/
def lightSystemUpdate (cam : Vec3) (es : List LightEnt)
    (ds : List DirectionalLightComponent) (ubo : GlobalUniformBuffer) :
    Except Nat GlobalUniformBuffer :=
  match updatePointLights cam es ubo with
  | .error i => .error i
  | .ok ubo1 => updateDirectionals ds ubo1

/-- The squared camera distance recomputed from a written ubo entry (its
position slot holds the light's translation). -/
def uboEntryDist2 (cam : Vec3) (en : PointLightUbo) : ℚ :=
  Vec3.dot (cam - ⟨en.m_Position.x, en.m_Position.y, en.m_Position.z⟩)
    (cam - ⟨en.m_Position.x, en.m_Position.y, en.m_Position.z⟩)

/-! ## Engine::RunScripts (core.cpp) -/

/-- One entity of `registry.view<ScriptComponent>()`: its handle (the
`static_cast<uint>(entity)` value used for the warn log) and whether
`scriptComponent.m_Script` is non-null. -/
structure ScriptEnt where
  handle : Nat
  hasScript : Bool
deriving DecidableEq, Repr

/-- The observable outcome of one `Engine::RunScripts` call: the warn log
(`static std::vector<uint> log`) after the call, the handles warned about
during the call (in order), and the handles whose script received `OnUpdate`
(in order). -/
structure RunScriptsResult where
  log : List Nat
  warned : List Nat
  updated : List Nat
deriving DecidableEq, Repr

/-- `Engine::RunScripts`, faithful to core.cpp lines 336-364: for each entity
of the view, if a script is attached call `OnUpdate`; otherwise scan the warn
log and — if the entity is already in it — `return` FROM RUNSCRIPTS (ending
the whole loop), else append the entity to the log and emit one warning. -/
def runScripts (log : List Nat) : List ScriptEnt → RunScriptsResult
  | [] => { log := log, warned := [], updated := [] }
  | e :: rest =>
    if e.hasScript then
      let r := runScripts log rest
      { r with updated := e.handle :: r.updated }
    else if log.contains e.handle then
      { log := log, warned := [], updated := [] }
    else
      let r := runScripts (log ++ [e.handle]) rest
      { r with warned := e.handle :: r.warned }

/-! ## Render-system construction (VKlightSys.cpp / VKpbrNoMapSys.cpp) -/

/-- Log severities of the engine's logging macros. -/
inductive LogSeverity where
  | info
  | warn
  | critical
deriving DecidableEq, Repr

structure LogEntry where
  severity : LogSeverity
  message : String
deriving DecidableEq, Repr

/-- VkResult, as an integer; `VK_SUCCESS = 0`. -/
def VK_SUCCESS : Int := 0

/-- Modelled from the spec: `LOG_CORE_CRITICAL` on the fatal
resource-creation path — "logged at highest severity and the process
terminates; no recovery attempted" / "the process aborts with a diagnostic
after logging" (spec sections 4.4 and 7a).  The macro's definition is not
under src/ (log.h defines only the logger accessors); termination is modelled
as an `Except.error` carrying the diagnostic, which aborts the surrounding
construction sequence. -/
def logCriticalFatal (msg : String) : Except LogEntry Unit :=
  .error ⟨LogSeverity.critical, msg⟩

/-- What a render-system constructor has created so far. -/
structure RenderSystemState where
  pipelineLayoutCreated : Bool
  pipelineCreated : Bool
deriving DecidableEq, Repr

/-- `CreatePipelineLayout` (identical logic in `VK_LightSystem` and
`VK_RenderSystemPbrNoMap`): if `vkCreatePipelineLayout` returned anything but
`VK_SUCCESS`, `LOG_CORE_CRITICAL("failed to create pipeline layout!")`
(modelled fatal); otherwise the layout now exists.  `res` is the result the
Vulkan call returned. -/
def CreatePipelineLayout (res : Int) : Except LogEntry Unit :=
  if res ≠ VK_SUCCESS then
    logCriticalFatal "failed to create pipeline layout!"
  else
    .ok ()

/-- A render-system constructor: `CreatePipelineLayout` then
`CreatePipeline`.  On an error in the first step the second is never
reached. -/
def renderSystemConstruct (res : Int) : Except LogEntry RenderSystemState :=
  match CreatePipelineLayout res with
  | .error e => .error e
  | .ok _ => .ok { pipelineLayoutCreated := true, pipelineCreated := true }

/-! ## Draw enumeration (VKpbrNoMapSys.cpp / VKshadowRenderSys.cpp) -/

/-- A registry entity as seen by the geometry/shadow passes: handle, optional
mesh component (with its enabled flag), and presence of the transform
component and of the `PbrNoMapTag` material tag. -/
structure DrawEnt where
  handle : Nat
  meshEnabled : Option Bool
  hasTransform : Bool
  hasPbrNoMapTag : Bool
deriving DecidableEq, Repr

/-- `registry.view<MeshComponent, TransformComponent, PbrNoMapTag>()`:
entities possessing all three components, in iteration order. -/
def pbrNoMapView (reg : List DrawEnt) : List DrawEnt :=
  reg.filter (fun e => e.meshEnabled.isSome && e.hasTransform && e.hasPbrNoMapTag)

/-- `registry.view<MeshComponent, TransformComponent>()` used by the shadow
pass. -/
def shadowView (reg : List DrawEnt) : List DrawEnt :=
  reg.filter (fun e => e.meshEnabled.isSome && e.hasTransform)

/-- `VK_RenderSystemPbrNoMap::RenderEntities`: iterate the view; draw
(`Bind` + `DrawNoMap`) exactly the entities whose `mesh.m_Enabled` is true.
Returns the handles drawn, in order. -/
def renderEntitiesPbrNoMap (reg : List DrawEnt) : List Nat :=
  ((pbrNoMapView reg).filter (fun e => e.meshEnabled = some true)).map DrawEnt.handle

/-- `VK_RenderSystemShadow::RenderEntities`: iterate the mesh view; push
constants are set for every entity but `Bind` + `DrawShadow` are issued only
when `mesh.m_Enabled` is true.  Returns the handles drawn, in order. -/
def renderEntitiesShadow (reg : List DrawEnt) : List Nat :=
  ((shadowView reg).filter (fun e => e.meshEnabled = some true)).map DrawEnt.handle

/-- Toggle the enabled flag of the mesh component of entity `h` (no component
is attached or detached). -/
def setMeshEnabled (reg : List DrawEnt) (h : Nat) (b : Bool) : List DrawEnt :=
  reg.map (fun e =>
    if e.handle = h then
      { e with meshEnabled := e.meshEnabled.map (fun _ => b) }
    else e)

/-! ## Resize pause and the main loop (core.cpp / engine.cpp) -/

/-- The engine state touched by the `WindowResizeEvent` handler. -/
structure EngineState where
  m_Paused : Bool
deriving DecidableEq, Repr

/-- The `WindowResizeEvent` branch of `Engine::OnEvent`: zero width or height
pauses; any fully non-zero resize unpauses. -/
def onWindowResizeEvent (st : EngineState) (width height : Nat) : EngineState :=
  if width = 0 ∨ height = 0 then
    { st with m_Paused := true }
  else
    { st with m_Paused := false }

/-- The actions one iteration of the main loop in engine.cpp can perform. -/
inductive MainLoopAction where
  | engineOnUpdate
  | appOnUpdate
  | runScriptsCall
  | engineOnRender
  | sleep16ms
deriving DecidableEq, Repr

/-- One iteration of the `while (engine->IsRunning())` loop of engine.cpp:
always `engine->OnUpdate()`; then, if not paused, `application->OnUpdate`,
`engine->RunScripts`, `engine->OnRender`; if paused, only a 16 ms sleep. -/
def mainLoopIteration (st : EngineState) : List MainLoopAction :=
  [MainLoopAction.engineOnUpdate] ++
    (if st.m_Paused then
      [MainLoopAction.sleep16ms]
    else
      [MainLoopAction.appOnUpdate, MainLoopAction.runScriptsCall,
       MainLoopAction.engineOnRender])

/-! ## Theorems: resize pause (C8), fatal construction (C4), scripts (C3) -/

/-- C8: a resize event with width 0 or height 0 pauses the engine and a resize
with both dimensions non-zero unpauses it (the flag equals `w = 0 ∨ h = 0`);
a paused main-loop iteration performs only the engine update and a sleep — no
application update, no script run, no render submission — while an unpaused
iteration performs update, scripts and render; both paths are total (no error
is raised in either direction). -/
theorem resize_pause_resume (st : EngineState) (w h : Nat) :
    (onWindowResizeEvent st w h).m_Paused = (decide (w = 0) || decide (h = 0)) ∧
    mainLoopIteration { m_Paused := true } =
      [MainLoopAction.engineOnUpdate, MainLoopAction.sleep16ms] ∧
    mainLoopIteration { m_Paused := false } =
      [MainLoopAction.engineOnUpdate, MainLoopAction.appOnUpdate,
       MainLoopAction.runScriptsCall, MainLoopAction.engineOnRender] := by
  refine ⟨?_, rfl, rfl⟩
  by_cases hw : w = 0 <;> by_cases hh : h = 0 <;>
    simp [onWindowResizeEvent, hw, hh]

/-- C4: if `vkCreatePipelineLayout` returns anything other than `VK_SUCCESS`,
render-system construction stops with a critical-severity diagnostic (the
modelled-fatal `LOG_CORE_CRITICAL`) and never reaches `CreatePipeline`; on
success construction completes fully initialized. -/
theorem renderSystemConstruct_fatal (res : Int) (hres : res ≠ VK_SUCCESS) :
    renderSystemConstruct res =
      .error ⟨LogSeverity.critical, "failed to create pipeline layout!"⟩ ∧
    renderSystemConstruct VK_SUCCESS =
      .ok { pipelineLayoutCreated := true, pipelineCreated := true } := by
  constructor
  · simp [renderSystemConstruct, CreatePipelineLayout, logCriticalFatal, hres]
  · rfl

/-- Witness for C4 at the concrete result code 1 (`VK_NOT_READY`). -/
theorem renderSystemConstruct_fatal_witness :
    renderSystemConstruct 1 =
      .error ⟨LogSeverity.critical, "failed to create pipeline layout!"⟩ ∧
    renderSystemConstruct VK_SUCCESS =
      .ok { pipelineLayoutCreated := true, pipelineCreated := true } :=
  renderSystemConstruct_fatal 1 (by decide)

/-- The registry used to exhibit the `RunScripts` early-return bug: entity 1
has a `ScriptComponent` with no attached script, entity 2 has a script. -/
def scriptRegC : List ScriptEnt := [⟨1, false⟩, ⟨2, true⟩]

/-- C3 (code bug): on the first `RunScripts` call entity 1 is warned about
once and entity 2 still gets `OnUpdate`; but on every later call the
deduplication branch for entity 1 executes `return` — not `continue` — so the
whole loop ends and entity 2, whose script IS attached, receives no
`OnUpdate`, contradicting "processing of the frame continues: every other
entity with an attached script still receives its OnUpdate call". -/
theorem runScripts_return_bug :
    runScripts [] scriptRegC = { log := [1], warned := [1], updated := [2] } ∧
    runScripts [1] scriptRegC = { log := [1], warned := [], updated := [] } := by
  decide

/-! ## Theorems: transform from an existing matrix (C9) -/

/-- C9: a `TransformComponent` built from an existing matrix starts with the
dirty flag clear; `GetMat4` returns exactly the supplied matrix and changes
nothing (no recomposition from the decomposed values); `GetNormalMatrix`
returns the uninitialized normal-matrix member `n0` — a value independent of
the supplied matrix — and the normal matrix is recomputed only once a mutator
sets the dirty flag and an accessor triggers `RecalculateMatrices`. -/
theorem fromMat4_lazy_normal (decomp : Mat4 → Vec3 × Vec3 × Vec3) (n0 : Mat3)
    (M : Mat4) (c s : ℚ → ℚ) (m : Mutation) :
    (TransformComponent.fromMat4 decomp n0 M).m_Dirty = false ∧
    (TransformComponent.GetMat4 c s (TransformComponent.fromMat4 decomp n0 M)).1 = M ∧
    (TransformComponent.GetMat4 c s (TransformComponent.fromMat4 decomp n0 M)).2 =
      TransformComponent.fromMat4 decomp n0 M ∧
    (TransformComponent.GetNormalMatrix c s (TransformComponent.fromMat4 decomp n0 M)).1 = n0 ∧
    (TransformComponent.GetNormalMatrix c s
        (applyMutation (TransformComponent.fromMat4 decomp n0 M) m)).1 =
      (TransformComponent.RecalculateMatrices c s
        (applyMutation (TransformComponent.fromMat4 decomp n0 M) m)).m_NormalMatrix := by
  refine ⟨rfl, rfl, rfl, rfl, ?_⟩
  have hdirty : (applyMutation (TransformComponent.fromMat4 decomp n0 M) m).m_Dirty = true := by
    cases m <;> rfl
  simp only [TransformComponent.GetNormalMatrix, hdirty, if_true]
  rfl

/-! ## Theorems: the dirty-flag protocol (C1) -/

lemma applyMutation_dirty (t : TransformComponent) (m : Mutation) :
    (applyMutation t m).m_Dirty = true := by
  cases m <;> rfl

lemma applyMutations_dirty (ms : List Mutation) (t : TransformComponent)
    (h : ms ≠ []) : (applyMutations t ms).m_Dirty = true := by
  induction ms generalizing t with
  | nil => exact absurd rfl h
  | cons m rest ih =>
    cases rest with
    | nil => exact applyMutation_dirty t m
    | cons m1 rest1 => exact ih (applyMutation t m) (by simp)

lemma getMat4_of_dirty (c s : ℚ → ℚ) (t : TransformComponent)
    (h : t.m_Dirty = true) :
    TransformComponent.GetMat4 c s t =
      ((TransformComponent.RecalculateMatrices c s t).m_Mat4,
       TransformComponent.RecalculateMatrices c s { t with m_Dirty := false }) := by
  simp only [TransformComponent.GetMat4, h, if_true]
  rfl

lemma getNormalMatrix_of_dirty (c s : ℚ → ℚ) (t : TransformComponent)
    (h : t.m_Dirty = true) :
    TransformComponent.GetNormalMatrix c s t =
      ((TransformComponent.RecalculateMatrices c s t).m_NormalMatrix,
       TransformComponent.RecalculateMatrices c s { t with m_Dirty := false }) := by
  simp only [TransformComponent.GetNormalMatrix, h, if_true]
  rfl

/-- After a recompute-and-clear, the caches agree with a fresh recomputation
from the (unchanged) scale / rotation / translation. -/
lemma cachesValid_recalculate (c s : ℚ → ℚ) (t : TransformComponent) :
    CachesValid c s (TransformComponent.RecalculateMatrices c s { t with m_Dirty := false }) :=
  ⟨rfl, rfl⟩

lemma bool_ne_true (b : Bool) (h : ¬ b = true) : b = false := by
  cases b
  · rfl
  · exact absurd rfl h

lemma getMat4_of_clean (c s : ℚ → ℚ) (t : TransformComponent)
    (h : t.m_Dirty = false) :
    TransformComponent.GetMat4 c s t = (t.m_Mat4, t) := by
  have hne : ¬ t.m_Dirty = true := by
    rw [h]
    decide
  simp only [TransformComponent.GetMat4]
  rw [if_neg hne]

lemma getNormalMatrix_of_clean (c s : ℚ → ℚ) (t : TransformComponent)
    (h : t.m_Dirty = false) :
    TransformComponent.GetNormalMatrix c s t = (t.m_NormalMatrix, t) := by
  have hne : ¬ t.m_Dirty = true := by
    rw [h]
    decide
  simp only [TransformComponent.GetNormalMatrix]
  rw [if_neg hne]

/-- Every transform operation preserves "clean implies valid caches". -/
lemma applyTOp_preserves_clean (c s : ℚ → ℚ) (t : TransformComponent) (op : TOp)
    (h : t.m_Dirty = false → CachesValid c s t) :
    (applyTOp c s t op).m_Dirty = false → CachesValid c s (applyTOp c s t op) := by
  cases op with
  | mutate m =>
    intro hfalse
    have hf2 : (applyMutation t m).m_Dirty = false := hfalse
    rw [applyMutation_dirty] at hf2
    exact Bool.noConfusion hf2
  | getM4 =>
    intro _
    show CachesValid c s (TransformComponent.GetMat4 c s t).2
    by_cases hd : t.m_Dirty = true
    · rw [getMat4_of_dirty c s t hd]
      exact cachesValid_recalculate c s t
    · have hd1 : t.m_Dirty = false := bool_ne_true _ hd
      rw [getMat4_of_clean c s t hd1]
      exact h hd1
  | getNorm =>
    intro _
    show CachesValid c s (TransformComponent.GetNormalMatrix c s t).2
    by_cases hd : t.m_Dirty = true
    · rw [getNormalMatrix_of_dirty c s t hd]
      exact cachesValid_recalculate c s t
    · have hd1 : t.m_Dirty = false := bool_ne_true _ hd
      rw [getNormalMatrix_of_clean c s t hd1]
      exact h hd1

lemma runTOps_clean_valid (c s : ℚ → ℚ) (ops : List TOp) (t : TransformComponent)
    (h : t.m_Dirty = false → CachesValid c s t) :
    (runTOps c s t ops).m_Dirty = false → CachesValid c s (runTOps c s t ops) := by
  induction ops generalizing t with
  | nil => exact h
  | cons op rest ih =>
    exact ih (applyTOp c s t op) (applyTOp_preserves_clean c s t op h)

/-- C1 (amended): every mutator leaves the dirty flag set; after any nonempty
sequence of mutators, `GetMat4` / `GetNormalMatrix` return exactly the
matrices recomputed from the final translation / rotation / scale and leave
the dirty flag clear; and for every state reachable from a default-constructed
transform (arbitrary uninitialized matrix members) by mutators and accessors,
a clear dirty flag implies the cached matrices are valid.  (The converse of
the last part — valid caches imply a clear flag — is false; see the
counterexample.) -/
theorem transform_dirty_protocol (c s : ℚ → ℚ) :
    (∀ (t : TransformComponent) (m : Mutation), (applyMutation t m).m_Dirty = true) ∧
    (∀ (t : TransformComponent) (ms : List Mutation), ms ≠ [] →
      (TransformComponent.GetMat4 c s (applyMutations t ms)).1 =
        (TransformComponent.RecalculateMatrices c s (applyMutations t ms)).m_Mat4 ∧
      (TransformComponent.GetMat4 c s (applyMutations t ms)).2.m_Dirty = false ∧
      (TransformComponent.GetNormalMatrix c s (applyMutations t ms)).1 =
        (TransformComponent.RecalculateMatrices c s (applyMutations t ms)).m_NormalMatrix ∧
      (TransformComponent.GetNormalMatrix c s (applyMutations t ms)).2.m_Dirty = false) ∧
    (∀ (m0 : Mat4) (n0 : Mat3) (ops : List TOp),
      (runTOps c s (TransformComponent.init m0 n0) ops).m_Dirty = false →
        CachesValid c s (runTOps c s (TransformComponent.init m0 n0) ops)) := by
  refine ⟨applyMutation_dirty, ?_, ?_⟩
  · intro t ms hms
    have hd : (applyMutations t ms).m_Dirty = true := applyMutations_dirty ms t hms
    rw [getMat4_of_dirty c s _ hd, getNormalMatrix_of_dirty c s _ hd]
    exact ⟨rfl, rfl, rfl, rfl⟩
  · intro m0 n0 ops
    exact runTOps_clean_valid c s ops (TransformComponent.init m0 n0)
      (fun hfalse => absurd hfalse (by simp [TransformComponent.init]))

/-- A concrete cosine stand-in used by closed instances. -/
def cQ : ℚ → ℚ := fun _ => 1

/-- A concrete sine stand-in used by closed instances. -/
def sQ : ℚ → ℚ := fun _ => 0

/-- A concrete arbitrary value for the uninitialized normal-matrix member. -/
def n0C : Mat3 := ⟨⟨5, 0, 0⟩, ⟨0, 5, 0⟩, ⟨0, 0, 5⟩⟩

/-- A default-constructed transform with concrete (arbitrary) uninitialized
matrix contents. -/
def t0C : TransformComponent := TransformComponent.init mat4id n0C

/-- The state after `GetMat4` (clean, valid caches) followed by
`SetTranslation` of the value the translation already has. -/
def t2C : TransformComponent :=
  applyMutation (TransformComponent.GetMat4 cQ sQ t0C).2 (Mutation.setTranslation ⟨0, 0, 0⟩)

/-- C1 counterexample: the claim's "the cached matrices are valid if and only
if the dirty flag is clear" fails in the only-if direction.  Concrete input:
default-construct, call `GetMat4`, then `SetTranslation` with the translation
value already stored.  The mutator sets the dirty flag, yet both caches still
equal a fresh recomputation from the current values: the state is valid AND
dirty. -/
theorem transform_valid_yet_dirty :
    t2C.m_Dirty = true ∧ CachesValid cQ sQ t2C :=
  ⟨rfl, rfl, rfl⟩

/-- Witness for C1 instantiating every hypothesis: the mutator sequence
`[SetScale(2)]` is nonempty, and the reachable-state hypothesis is discharged
on the concrete op list `[GetMat4]`. -/
theorem transform_dirty_protocol_witness :
    (TransformComponent.GetMat4 cQ sQ (applyMutations t0C [Mutation.setScaleF 2])).1 =
      (TransformComponent.RecalculateMatrices cQ sQ
        (applyMutations t0C [Mutation.setScaleF 2])).m_Mat4 ∧
    (TransformComponent.GetMat4 cQ sQ (applyMutations t0C [Mutation.setScaleF 2])).2.m_Dirty
      = false ∧
    CachesValid cQ sQ (runTOps cQ sQ (TransformComponent.init mat4id n0C) [TOp.getM4]) :=
  ⟨((transform_dirty_protocol cQ sQ).2.1 t0C [Mutation.setScaleF 2] (by simp)).1,
   ((transform_dirty_protocol cQ sQ).2.1 t0C [Mutation.setScaleF 2] (by simp)).2.1,
   (transform_dirty_protocol cQ sQ).2.2 mat4id n0C [TOp.getM4] rfl⟩

/-! ## Theorems: matrix composition order (C5) -/

/-- The translation matrix of the spec: identity with the translation vector
in the fourth column. -/
def TranslationMatrix (v : Vec3) : Mat4 :=
  ⟨⟨1, 0, 0, 0⟩, ⟨0, 1, 0, 0⟩, ⟨0, 0, 1, 0⟩, ⟨v.x, v.y, v.z, 1⟩⟩

/-- The scale matrix of the spec: the diagonal of the scale vector. -/
def ScaleMatrix (v : Vec3) : Mat4 :=
  ⟨⟨v.x, 0, 0, 0⟩, ⟨0, v.y, 0, 0⟩, ⟨0, 0, v.z, 0⟩, ⟨0, 0, 0, 1⟩⟩

/-- The rotation matrix of the spec: the Euler angles converted to a
quaternion and cast to a matrix, exactly glm's `toMat4(quat(r))`. -/
def RotationMatrix (c s : ℚ → ℚ) (r : Vec3) : Mat4 :=
  glmToMat4 (quatFromEuler c s r)

lemma glmTranslate_id (v : Vec3) : glmTranslate mat4id v = TranslationMatrix v := by
  simp only [glmTranslate, mat4id, TranslationMatrix, Vec4.smul, Vec4.add, Mat4.mk.injEq,
    Vec4.mk.injEq]
  norm_num

lemma glmScale_id (v : Vec3) : glmScale mat4id v = ScaleMatrix v := by
  simp only [glmScale, mat4id, ScaleMatrix, Vec4.smul, Mat4.mk.injEq, Vec4.mk.injEq]
  norm_num

/-- C5: `RecalculateMatrices` computes the model matrix as
`Translation(t) × Rotation(r) × Scale(s)` — in exactly that order (C++ `*`
associates to the left) — and the normal matrix as the transposed inverse of
the model matrix's upper-left 3×3 block.  Holds for every transform state and
every cosine/sine interpretation. -/
theorem recalculate_composition (c s : ℚ → ℚ) (t : TransformComponent) :
    (TransformComponent.RecalculateMatrices c s t).m_Mat4 =
      ((TranslationMatrix t.m_Translation).mul (RotationMatrix c s t.m_Rotation)).mul
        (ScaleMatrix t.m_Scale) ∧
    (TransformComponent.RecalculateMatrices c s t).m_NormalMatrix =
      transpose3 (inverse3 (mat3OfMat4
        (TransformComponent.RecalculateMatrices c s t).m_Mat4)) := by
  constructor
  · show ((glmTranslate mat4id ⟨t.m_Translation.x, t.m_Translation.y, t.m_Translation.z⟩).mul
        (glmToMat4 (quatFromEuler c s t.m_Rotation))).mul (glmScale mat4id t.m_Scale) = _
    rw [glmTranslate_id, glmScale_id]
    rfl
  · rfl

/-! ## Theorems: the enabled flag gates draw calls (C6) -/

/-- Membership in `map handle ∘ filter` for a registry with distinct handles:
an entity's handle is enumerated exactly when the entity satisfies the
filter. -/
lemma handle_mem_filter_map (reg : List DrawEnt) (p : DrawEnt → Bool)
    (hnd : (reg.map DrawEnt.handle).Nodup) (e : DrawEnt) (he : e ∈ reg) :
    e.handle ∈ (reg.filter p).map DrawEnt.handle ↔ p e = true := by
  constructor
  · intro h
    obtain ⟨e1, he1, hh⟩ := List.mem_map.mp h
    have he1reg : e1 ∈ reg := List.mem_of_mem_filter he1
    have heq : e1 = e := List.inj_on_of_nodup_map hnd he1reg he hh
    rw [← heq]
    exact (List.mem_filter.mp he1).2
  · intro hp
    exact List.mem_map_of_mem _ (List.mem_filter.mpr ⟨he, hp⟩)

lemma renderEntitiesPbrNoMap_eq_filter (reg : List DrawEnt) :
    renderEntitiesPbrNoMap reg =
      (reg.filter (fun e => decide (e.meshEnabled = some true) &&
        (e.meshEnabled.isSome && e.hasTransform && e.hasPbrNoMapTag))).map DrawEnt.handle := by
  rw [renderEntitiesPbrNoMap, pbrNoMapView, List.filter_filter]

lemma renderEntitiesShadow_eq_filter (reg : List DrawEnt) :
    renderEntitiesShadow reg =
      (reg.filter (fun e => decide (e.meshEnabled = some true) &&
        (e.meshEnabled.isSome && e.hasTransform))).map DrawEnt.handle := by
  rw [renderEntitiesShadow, shadowView, List.filter_filter]

/-- Toggling the flag changes neither the handles nor which entities exist. -/
lemma setMeshEnabled_handles (reg : List DrawEnt) (h : Nat) (b : Bool) :
    (setMeshEnabled reg h b).map DrawEnt.handle = reg.map DrawEnt.handle := by
  rw [setMeshEnabled, List.map_map]
  apply List.map_congr_left
  intro e _
  by_cases hcase : e.handle = h <;> simp [Function.comp, hcase]

/-- C6: with distinct handles, the geometry pass draws an entity exactly when
it matches the pass's component set (mesh + transform + `PbrNoMapTag`) and its
mesh's enabled flag is true; the shadow pass likewise for its component set
(mesh + transform); and setting the flag through `setMeshEnabled` — which
attaches or detaches nothing — includes or excludes the entity from the next
enumeration according to the new flag value.  Entities with the flag false are
merely absent from the draw list (the enumeration is total, no error). -/
theorem mesh_enabled_gates_draws (reg : List DrawEnt)
    (hnd : (reg.map DrawEnt.handle).Nodup) (e : DrawEnt) (he : e ∈ reg) (b : Bool) :
    (e.handle ∈ renderEntitiesPbrNoMap reg ↔
      (e.meshEnabled = some true ∧ e.hasTransform = true ∧ e.hasPbrNoMapTag = true)) ∧
    (e.handle ∈ renderEntitiesShadow reg ↔
      (e.meshEnabled = some true ∧ e.hasTransform = true)) ∧
    (e.meshEnabled.isSome = true →
      (e.handle ∈ renderEntitiesPbrNoMap (setMeshEnabled reg e.handle b) ↔
        (b = true ∧ e.hasTransform = true ∧ e.hasPbrNoMapTag = true))) := by
  refine ⟨?_, ?_, ?_⟩
  · rw [renderEntitiesPbrNoMap_eq_filter,
      handle_mem_filter_map reg _ hnd e he]
    constructor
    · intro h
      simp only [Bool.and_eq_true, decide_eq_true_eq] at h
      exact ⟨h.1, h.2.1.2, h.2.2⟩
    · rintro ⟨h1, h2, h3⟩
      simp [h1, h2, h3, Option.isSome]
  · rw [renderEntitiesShadow_eq_filter,
      handle_mem_filter_map reg _ hnd e he]
    constructor
    · intro h
      simp only [Bool.and_eq_true, decide_eq_true_eq] at h
      exact ⟨h.1, h.2.2⟩
    · rintro ⟨h1, h2⟩
      simp [h1, h2, Option.isSome]
  · intro hsome
    have hnd1 : ((setMeshEnabled reg e.handle b).map DrawEnt.handle).Nodup := by
      rw [setMeshEnabled_handles]
      exact hnd
    have he1 : (if e.handle = e.handle then
        { e with meshEnabled := e.meshEnabled.map (fun _ => b) } else e) ∈
          setMeshEnabled reg e.handle b :=
      List.mem_map_of_mem _ he
    rw [if_pos rfl] at he1
    have hmesh : e.meshEnabled.map (fun _ => b) = some b := by
      obtain ⟨v, hv⟩ := Option.isSome_iff_exists.mp hsome
      rw [hv]
      rfl
    have hmem := handle_mem_filter_map (setMeshEnabled reg e.handle b)
      (fun e => decide (e.meshEnabled = some true) &&
        (e.meshEnabled.isSome && e.hasTransform && e.hasPbrNoMapTag)) hnd1 _ he1
    rw [renderEntitiesPbrNoMap_eq_filter]
    rw [show ({ e with meshEnabled := e.meshEnabled.map (fun _ => b) } : DrawEnt).handle
        = e.handle from rfl] at hmem
    rw [hmem]
    simp only [hmesh, Bool.and_eq_true, decide_eq_true_eq, Option.isSome_some,
      Option.some.injEq]
    tauto

/-- Witness for C6 at a concrete two-entity registry: entity 1 enabled and
matching everything, entity 2 disabled; the flag then toggled. -/
theorem mesh_enabled_gates_draws_witness :
    ((1 : Nat) ∈ renderEntitiesPbrNoMap
        [⟨1, some true, true, true⟩, ⟨2, some false, true, true⟩] ↔
      ((some true : Option Bool) = some true ∧ true = true ∧ true = true)) ∧
    ((1 : Nat) ∈ renderEntitiesShadow
        [⟨1, some true, true, true⟩, ⟨2, some false, true, true⟩] ↔
      ((some true : Option Bool) = some true ∧ true = true)) ∧
    ((some true : Option Bool).isSome = true →
      ((1 : Nat) ∈ renderEntitiesPbrNoMap
          (setMeshEnabled [⟨1, some true, true, true⟩, ⟨2, some false, true, true⟩] 1 false) ↔
        (false = true ∧ true = true ∧ true = true))) :=
  mesh_enabled_gates_draws
    [⟨1, some true, true, true⟩, ⟨2, some false, true, true⟩]
    (by decide) ⟨1, some true, true, true⟩ (by decide) false

/-! ## Theorems: point-light sorting (C2), light cap (C7), directional (C10) -/

def mapKeys (m : List (ℚ × LightEnt)) : List ℚ := m.map Prod.fst

/-- Keys strictly ascend along the association list (the std::map invariant). -/
def MapSorted (m : List (ℚ × LightEnt)) : Prop :=
  m.Pairwise (fun a b => a.1 < b.1)

lemma mem_of_mem_mapInsert {k : ℚ} {v : LightEnt} {m : List (ℚ × LightEnt)}
    {p : ℚ × LightEnt} (h : p ∈ mapInsert k v m) : p ∈ m ∨ p = (k, v) := by
  induction m with
  | nil =>
    rw [mapInsert] at h
    right
    simpa using h
  | cons hd tl ih =>
    rw [mapInsert] at h
    split at h
    · rcases List.mem_cons.mp h with h1 | h1
      · right
        exact h1
      · left
        exact h1
    · split at h
      · rcases List.mem_cons.mp h with h1 | h1
        · left
          rw [h1]
          exact List.mem_cons_self hd tl
        · rcases ih h1 with h2 | h2
          · left
            exact List.mem_cons_of_mem hd h2
          · right
            exact h2
      · left
        exact h

lemma mapInsert_sorted {k : ℚ} {v : LightEnt} {m : List (ℚ × LightEnt)}
    (h : MapSorted m) : MapSorted (mapInsert k v m) := by
  induction m with
  | nil =>
    rw [mapInsert]
    exact List.pairwise_singleton _ _
  | cons hd tl ih =>
    rw [MapSorted, List.pairwise_cons] at h
    rw [mapInsert]
    split
    · rename_i hk
      rw [MapSorted, List.pairwise_cons]
      refine ⟨?_, List.pairwise_cons.mpr h⟩
      intro q hq
      rcases List.mem_cons.mp hq with h1 | h1
      · rw [h1]
        exact hk
      · exact lt_trans hk (h.1 q h1)
    · split
      · rename_i hk1 hk2
        rw [MapSorted, List.pairwise_cons]
        refine ⟨?_, ih h.2⟩
        intro q hq
        rcases mem_of_mem_mapInsert hq with h1 | h1
        · exact h.1 q h1
        · rw [h1]
          exact hk2
      · exact List.pairwise_cons.mpr h

lemma mapInsert_length {k : ℚ} {v : LightEnt} (m : List (ℚ × LightEnt)) :
    (mapInsert k v m).length ≤ m.length + 1 := by
  induction m with
  | nil => simp [mapInsert]
  | cons hd tl ih =>
    rw [mapInsert]
    split
    · simp
    · split
      · simpa using Nat.succ_le_succ ih
      · simp

lemma mapInsert_perm {k : ℚ} {v : LightEnt} {m : List (ℚ × LightEnt)}
    (h : k ∉ mapKeys m) : (mapInsert k v m).Perm ((k, v) :: m) := by
  induction m with
  | nil =>
    rw [mapInsert]
  | cons hd tl ih =>
    rw [mapKeys, List.map_cons, List.mem_cons] at h
    push_neg at h
    rw [mapInsert]
    split
    · exact List.Perm.refl _
    · split
      · refine ((ih h.2).cons hd).trans ?_
        exact List.Perm.swap (k, v) hd tl
      · rename_i h1 h2
        exact absurd (le_antisymm (le_of_not_lt h2) (le_of_not_lt h1)) h.1

/-- The pure fold the first Update loop performs when no assertion fires. -/
def foldInsert (cam : Vec3) (es : List LightEnt) (m : List (ℚ × LightEnt)) :
    List (ℚ × LightEnt) :=
  es.foldl (fun acc e => mapInsert (dist2 cam e) e acc) m

lemma fillSortedLight_ok (cam : Vec3) (es : List LightEnt) :
    ∀ (i : Nat) (m : List (ℚ × LightEnt)), i + es.length ≤ MAX_LIGHTS →
      fillSortedLight cam es i m = .ok (foldInsert cam es m) := by
  induction es with
  | nil =>
    intro i m _
    rfl
  | cons e rest ih =>
    intro i m hle
    rw [fillSortedLight, if_pos (by simp at hle; omega)]
    exact ih (i + 1) (mapInsert (dist2 cam e) e m) (by simp at hle ⊢; omega)

lemma fillSortedLight_error (cam : Vec3) (es : List LightEnt) :
    ∀ (i : Nat) (m : List (ℚ × LightEnt)), i ≤ MAX_LIGHTS →
      MAX_LIGHTS < i + es.length →
      fillSortedLight cam es i m = .error MAX_LIGHTS := by
  induction es with
  | nil =>
    intro i m h1 h2
    simp at h2
    omega
  | cons e rest ih =>
    intro i m h1 h2
    by_cases hi : i < MAX_LIGHTS
    · rw [fillSortedLight, if_pos hi]
      exact ih (i + 1) _ (by omega) (by simp at h2 ⊢; omega)
    · have : i = MAX_LIGHTS := by omega
      rw [fillSortedLight, if_neg hi, this]

lemma foldInsert_sorted (cam : Vec3) (es : List LightEnt) :
    ∀ (m : List (ℚ × LightEnt)), MapSorted m → MapSorted (foldInsert cam es m) := by
  induction es with
  | nil => exact fun m h => h
  | cons e rest ih =>
    intro m h
    exact ih _ (mapInsert_sorted h)

lemma foldInsert_entries (cam : Vec3) (P : ℚ × LightEnt → Prop) (es : List LightEnt) :
    ∀ (m : List (ℚ × LightEnt)), (∀ p ∈ m, P p) → (∀ e ∈ es, P (dist2 cam e, e)) →
      ∀ p ∈ foldInsert cam es m, P p := by
  induction es with
  | nil => exact fun m hm _ => hm
  | cons e rest ih =>
    intro m hm hes
    refine ih _ ?_ (fun e1 he1 => hes e1 (List.mem_cons_of_mem e he1))
    intro p hp
    rcases mem_of_mem_mapInsert hp with h | h
    · exact hm p h
    · rw [h]
      exact hes e (List.mem_cons_self e rest)

lemma foldInsert_length (cam : Vec3) (es : List LightEnt) :
    ∀ (m : List (ℚ × LightEnt)),
      (foldInsert cam es m).length ≤ m.length + es.length := by
  induction es with
  | nil => simp [foldInsert]
  | cons e rest ih =>
    intro m
    calc (foldInsert cam (e :: rest) m).length
        = (foldInsert cam rest (mapInsert (dist2 cam e) e m)).length := rfl
      _ ≤ (mapInsert (dist2 cam e) e m).length + rest.length := ih _
      _ ≤ (m.length + 1) + rest.length :=
          Nat.add_le_add_right (mapInsert_length m) rest.length
      _ = m.length + (e :: rest).length := by
          simp only [List.length_cons]
          omega

lemma mem_mapKeys {q : ℚ} {m : List (ℚ × LightEnt)} (h : q ∈ mapKeys m) :
    ∃ p ∈ m, p.1 = q := by
  rw [mapKeys] at h
  obtain ⟨p, hp, hpq⟩ := List.mem_map.mp h
  exact ⟨p, hp, hpq⟩

lemma mapKeys_mapInsert {q k : ℚ} {v : LightEnt} {m : List (ℚ × LightEnt)}
    (h : q ∈ mapKeys (mapInsert k v m)) : q = k ∨ q ∈ mapKeys m := by
  obtain ⟨p, hp, hpq⟩ := mem_mapKeys h
  rcases mem_of_mem_mapInsert hp with h1 | h1
  · right
    rw [mapKeys]
    exact hpq ▸ List.mem_map_of_mem Prod.fst h1
  · left
    rw [← hpq, h1]

lemma foldInsert_perm (cam : Vec3) (es : List LightEnt) :
    ∀ (m : List (ℚ × LightEnt)),
      es.Pairwise (fun a b => dist2 cam a ≠ dist2 cam b) →
      (∀ e ∈ es, dist2 cam e ∉ mapKeys m) →
      (foldInsert cam es m).Perm (es.map (fun e => (dist2 cam e, e)) ++ m) := by
  induction es with
  | nil =>
    intro m _ _
    simp [foldInsert]
  | cons e rest ih =>
    intro m hdist hfresh
    rw [List.pairwise_cons] at hdist
    have hstep : (mapInsert (dist2 cam e) e m).Perm ((dist2 cam e, e) :: m) :=
      mapInsert_perm (hfresh e (List.mem_cons_self e rest))
    have hfresh1 : ∀ e1 ∈ rest, dist2 cam e1 ∉ mapKeys (mapInsert (dist2 cam e) e m) := by
      intro e1 he1 hmem
      rcases mapKeys_mapInsert hmem with h | h
      · exact hdist.1 e1 he1 h.symm
      · exact hfresh e1 (List.mem_cons_of_mem e he1) h
    have hih := ih (mapInsert (dist2 cam e) e m) hdist.2 hfresh1
    show List.Perm (foldInsert cam rest (mapInsert (dist2 cam e) e m)) _
    refine (hih.trans (hstep.append_left _)).trans ?_
    rw [List.map_cons, List.cons_append]
    exact List.perm_middle

/-- C2 (amended): for at most `MAX_LIGHTS` point lights, `Update` succeeds and
copies lights into the uniform buffer in strictly descending order of squared
camera distance, setting the active count to the number of entries written;
every entry is the data of some input light; the whole result is a function of
the camera position and the (ordered) light set, hence deterministic and
reproducible; and when all squared distances are distinct, NO light is dropped
— the entries are exactly the input lights' data, reordered.  When two lights
tie in squared distance, however, `std::map::insert` silently drops the
later-iterated one (ties are NOT broken by entity handle): see the
counterexample. -/
theorem pointLight_descending_amended (cam : Vec3) (es : List LightEnt)
    (ubo : GlobalUniformBuffer) (hlen : es.length ≤ MAX_LIGHTS) :
    ∃ u, updatePointLights cam es ubo = .ok u ∧
      u.m_NumberOfActivePointLights = u.m_PointLights.length ∧
      u.m_PointLights.length ≤ es.length ∧
      u.m_PointLights.Pairwise (fun a b => uboEntryDist2 cam b < uboEntryDist2 cam a) ∧
      (∀ en ∈ u.m_PointLights, ∃ e ∈ es, en = pointLightUboOf e) ∧
      (es.Pairwise (fun a b => dist2 cam a ≠ dist2 cam b) →
        u.m_PointLights.Perm (es.map pointLightUboOf)) := by
  have hfill : fillSortedLight cam es 0 [] = .ok (foldInsert cam es []) :=
    fillSortedLight_ok cam es 0 [] (by omega)
  have hupdate : updatePointLights cam es ubo = .ok
      { ubo with
          m_PointLights := (foldInsert cam es []).reverse.map (fun p => pointLightUboOf p.2)
          m_NumberOfActivePointLights :=
            ((foldInsert cam es []).reverse.map (fun p => pointLightUboOf p.2)).length } := by
    unfold updatePointLights
    rw [hfill]
  have hsorted : MapSorted (foldInsert cam es []) :=
    foldInsert_sorted cam es [] List.Pairwise.nil
  have hentries : ∀ p ∈ foldInsert cam es [],
      p.1 = dist2 cam p.2 ∧ p.2 ∈ es :=
    foldInsert_entries cam (fun p => p.1 = dist2 cam p.2 ∧ p.2 ∈ es) es []
      (by simp) (fun e he => ⟨rfl, he⟩)
  refine ⟨_, hupdate, rfl, ?_, ?_, ?_, ?_⟩
  · simp only [List.length_map, List.length_reverse]
    have := foldInsert_length cam es []
    simpa using this
  · show ((foldInsert cam es []).reverse.map (fun p => pointLightUboOf p.2)).Pairwise
      (fun a b => uboEntryDist2 cam b < uboEntryDist2 cam a)
    rw [List.pairwise_map, List.pairwise_reverse]
    refine hsorted.imp_of_mem ?_
    intro a b ha hb hlt
    show dist2 cam a.2 < dist2 cam b.2
    rw [← (hentries a ha).1, ← (hentries b hb).1]
    exact hlt
  · intro en hen
    obtain ⟨p, hp, hfp⟩ := List.mem_map.mp hen
    have hpm : p ∈ foldInsert cam es [] := List.mem_reverse.mp hp
    exact ⟨p.2, (hentries p hpm).2, hfp.symm⟩
  · intro hdist
    have hperm : (foldInsert cam es []).Perm (es.map (fun e => (dist2 cam e, e))) := by
      have := foldInsert_perm cam es [] hdist (by simp [mapKeys])
      simpa using this
    have h1 : ((foldInsert cam es []).reverse.map (fun p => pointLightUboOf p.2)).Perm
        ((foldInsert cam es []).map (fun p => pointLightUboOf p.2)) :=
      (List.reverse_perm (foldInsert cam es [])).map _
    have h2 : ((foldInsert cam es []).map (fun p => pointLightUboOf p.2)).Perm
        ((es.map (fun e => (dist2 cam e, e))).map (fun p => pointLightUboOf p.2)) :=
      hperm.map _
    refine (h1.trans h2).trans ?_
    rw [List.map_map]
    exact List.Perm.refl _

/-- Camera at the origin for the concrete light-system instances. -/
def camC : Vec3 := ⟨0, 0, 0⟩

/-- A point light at distance² 1 from the camera, handle 1, red. -/
def lightA : LightEnt := ⟨1, ⟨1, 0, 0⟩, ⟨⟨1, 0, 0⟩, 1, 1⟩⟩

/-- A point light also at distance² 1, handle 2, green. -/
def lightB : LightEnt := ⟨2, ⟨0, 1, 0⟩, ⟨⟨0, 1, 0⟩, 1, 1⟩⟩

/-- A point light at distance² 4, handle 3, blue. -/
def lightC2 : LightEnt := ⟨3, ⟨2, 0, 0⟩, ⟨⟨0, 0, 1⟩, 1, 1⟩⟩

/-- A uniform buffer in its initial state. -/
def uboInitC : GlobalUniformBuffer := ⟨[], 0, ⟨⟨0, 0, 0, 0⟩, ⟨0, 0, 0, 0⟩⟩, 0⟩

lemma Vec3.sub_def (a b : Vec3) : a - b = ⟨a.x - b.x, a.y - b.y, a.z - b.z⟩ := rfl

/-- Two lights tied in squared distance: `std::map::insert` drops the
second-iterated one, so a single entry reaches the uniform buffer. -/
lemma updatePointLights_tie (cam : Vec3) (e1 e2 : LightEnt)
    (ubo : GlobalUniformBuffer) (heq : dist2 cam e1 = dist2 cam e2) :
    updatePointLights cam [e1, e2] ubo = .ok
      { ubo with m_PointLights := [pointLightUboOf e1]
                 m_NumberOfActivePointLights := 1 } := by
  have hfill : fillSortedLight cam [e1, e2] 0 [] = .ok [(dist2 cam e1, e1)] := by
    simp [fillSortedLight, mapInsert, MAX_LIGHTS, heq, lt_self_iff_false]
  unfold updatePointLights
  rw [hfill]
  rfl

/-- C2 counterexample: two lights at EQUAL squared distance from the camera.
`std::map::insert` with the duplicate key fails silently, so only the
first-iterated light (handle 1) reaches the uniform buffer and the active
count is 1, not 2 — a light IS dropped, refuting "ties in squared distance
broken by entity handle ordering (in particular, no light is dropped ...)". -/
theorem pointLight_tie_drops_light :
    dist2 camC lightA = dist2 camC lightB ∧
    updatePointLights camC [lightA, lightB] uboInitC =
      .ok { uboInitC with m_PointLights := [pointLightUboOf lightA]
                          m_NumberOfActivePointLights := 1 } ∧
    (1 : Nat) ≠ 2 := by
  have heq : dist2 camC lightA = dist2 camC lightB := by
    norm_num [dist2, camC, lightA, lightB, Vec3.dot, Vec3.sub_def]
  exact ⟨heq, updatePointLights_tie camC lightA lightB uboInitC heq, by decide⟩

/-- Witness for C2's amended theorem at the concrete two-light set with
distinct squared distances. -/
theorem pointLight_descending_amended_witness :
    [lightA, lightC2].length ≤ MAX_LIGHTS ∧
    (∃ u, updatePointLights camC [lightA, lightC2] uboInitC = .ok u ∧
      u.m_NumberOfActivePointLights = u.m_PointLights.length ∧
      u.m_PointLights.length ≤ [lightA, lightC2].length ∧
      u.m_PointLights.Pairwise (fun a b => uboEntryDist2 camC b < uboEntryDist2 camC a) ∧
      (∀ en ∈ u.m_PointLights, ∃ e ∈ [lightA, lightC2], en = pointLightUboOf e) ∧
      ([lightA, lightC2].Pairwise (fun a b => dist2 camC a ≠ dist2 camC b) →
        u.m_PointLights.Perm ([lightA, lightC2].map pointLightUboOf))) :=
  ⟨by decide,
   pointLight_descending_amended camC [lightA, lightC2] uboInitC (by decide)⟩

/-- C7: with more than `MAX_LIGHTS` point lights the (spec-modelled fatal)
assertion `lightIndex < MAX_LIGHTS` fires deterministically at
`lightIndex = MAX_LIGHTS`, before the over-capacity light is processed and
before any uniform-buffer write; and whenever `Update` completes, the number
of point-light entries written — and the active count — never exceed
`MAX_LIGHTS` (no write past the end of the point-light array). -/
theorem pointLight_cap :
    (∀ (cam : Vec3) (es : List LightEnt) (ubo : GlobalUniformBuffer),
      MAX_LIGHTS < es.length → updatePointLights cam es ubo = .error MAX_LIGHTS) ∧
    (∀ (cam : Vec3) (es : List LightEnt) (ubo u : GlobalUniformBuffer),
      updatePointLights cam es ubo = .ok u →
        u.m_PointLights.length ≤ MAX_LIGHTS ∧
        u.m_NumberOfActivePointLights ≤ MAX_LIGHTS) := by
  constructor
  · intro cam es ubo hgt
    unfold updatePointLights
    rw [fillSortedLight_error cam es 0 [] (Nat.zero_le _) (by omega)]
  · intro cam es ubo u hok
    by_cases hlen : es.length ≤ MAX_LIGHTS
    · have hfill : fillSortedLight cam es 0 [] = .ok (foldInsert cam es []) :=
        fillSortedLight_ok cam es 0 [] (by omega)
      unfold updatePointLights at hok
      rw [hfill] at hok
      have hlen2 : (foldInsert cam es []).length ≤ es.length := by
        have := foldInsert_length cam es []
        simpa using this
      injection hok with hu
      rw [← hu]
      constructor
      · simpa using le_trans hlen2 hlen
      · simpa using le_trans hlen2 hlen
    · have := fillSortedLight_error cam es 0 [] (Nat.zero_le _) (by omega)
      unfold updatePointLights at hok
      rw [this] at hok
      cases hok

/-- The uniform buffer produced by one in-capacity light. -/
def uboOneC : GlobalUniformBuffer :=
  { uboInitC with m_PointLights := [pointLightUboOf lightA]
                  m_NumberOfActivePointLights := 1 }

/-- Witness for C7: eleven lights exceed the cap of ten and abort at index
ten; a one-light update completes within the cap. -/
theorem pointLight_cap_witness :
    (MAX_LIGHTS < (List.replicate 11 lightA).length ∧
      updatePointLights camC (List.replicate 11 lightA) uboInitC = .error MAX_LIGHTS) ∧
    (uboOneC.m_PointLights.length ≤ MAX_LIGHTS ∧
      uboOneC.m_NumberOfActivePointLights ≤ MAX_LIGHTS) :=
  ⟨⟨by decide, pointLight_cap.1 camC (List.replicate 11 lightA) uboInitC (by decide)⟩,
   pointLight_cap.2 camC [lightA] uboInitC uboOneC rfl⟩

lemma updateDirectionalsFrom_ok :
    ∀ (ds : List DirectionalLightComponent) (h1 : ds ≠ [])
      (ubo : GlobalUniformBuffer) (i : Nat), i + ds.length ≤ MAX_LIGHTS →
      updateDirectionalsFrom ubo ds i = .ok
        { ubo with m_DirectionalLight := directionalLightUboOf (ds.getLast h1)
                   m_NumberOfActiveDirectionalLights := i + ds.length } := by
  intro ds
  induction ds with
  | nil => exact fun h1 => absurd rfl h1
  | cons d rest ih =>
    intro h1 ubo i hle
    rw [updateDirectionalsFrom, if_pos (by simp at hle; omega)]
    cases rest with
    | nil =>
      rw [updateDirectionalsFrom]
      rfl
    | cons d1 rest1 =>
      rw [ih (by simp) _ (i + 1) (by simp at hle ⊢; omega)]
      have hnum : i + 1 + (d1 :: rest1).length = i + (d :: d1 :: rest1).length := by
        simp only [List.length_cons]
        omega
      rw [hnum, List.getLast_cons (show d1 :: rest1 ≠ [] by simp)]

/-- C10 (amended): for 1 ≤ N ≤ `MAX_LIGHTS` directional lights, `Update`
writes each one in iteration order into the single directional-light slot, so
the slot ends the frame holding the data of the last-iterated light, the
active-directional count is set to N, and every other uniform-buffer field
(the point lights and their count) is left untouched by this block.  For
N > `MAX_LIGHTS` the (spec-modelled fatal) assertion aborts the update
instead: see the counterexample. -/
theorem directional_last_wins_amended (ds : List DirectionalLightComponent)
    (ubo : GlobalUniformBuffer) (h1 : ds ≠ []) (h2 : ds.length ≤ MAX_LIGHTS) :
    updateDirectionals ds ubo = .ok
      { ubo with m_DirectionalLight := directionalLightUboOf (ds.getLast h1)
                 m_NumberOfActiveDirectionalLights := ds.length } := by
  have := updateDirectionalsFrom_ok ds h1 ubo 0 (by omega)
  rw [updateDirectionals, this]
  rw [Nat.zero_add]

/-- A concrete directional light. -/
def dirC : DirectionalLightComponent := ⟨⟨0, -1, 0⟩, ⟨1, 1, 1⟩, 1⟩

/-- Another concrete directional light with different data. -/
def dirC2 : DirectionalLightComponent := ⟨⟨1, 0, 0⟩, ⟨0, 1, 0⟩, 2⟩

/-- C10 counterexample: the claim quantifies over every N ≥ 1, but at
N = `MAX_LIGHTS` + 1 = 11 the directional loop's assertion
`lightIndex < MAX_LIGHTS` (modelled fatal, per the spec's "assertion/ fatal in
source") aborts the update at index ten: the frame never ends with the slot
holding the last light and the count set to 11. -/
theorem directional_over_cap_aborts :
    updateDirectionals (List.replicate 11 dirC) uboInitC = .error MAX_LIGHTS ∧
    (Except.error MAX_LIGHTS : Except Nat GlobalUniformBuffer) ≠
      .ok { uboInitC with m_DirectionalLight := directionalLightUboOf dirC
                          m_NumberOfActiveDirectionalLights := 11 } := by
  exact ⟨rfl, fun h => Except.noConfusion h⟩

/-- Witness for C10's amended theorem at a concrete two-light list: the slot
ends holding the second (last-iterated) light and the count is 2. -/
theorem directional_last_wins_witness :
    updateDirectionals [dirC, dirC2] uboInitC = .ok
      { uboInitC with
          m_DirectionalLight := directionalLightUboOf ([dirC, dirC2].getLast (by decide))
          m_NumberOfActiveDirectionalLights := [dirC, dirC2].length } :=
  directional_last_wins_amended [dirC, dirC2] uboInitC (by decide) (by decide)

end GfxRenderEngine
